import Mathlib

/-!
Verification development for the Shift Aggregation and Reporting Engine
(PSCounts). The Python source is shallowly embedded: pandas DataFrames
become lists of rows, Excel workbooks become association lists from sheet
names to sheets, the JSON durable store becomes an association list from
quarter names to role maps, and Python dicts become insertion-ordered
association lists. Machine floats are modelled by rationals; the float
cells read back from Excel are modelled by optional integers (with the
missing value NaN modelled as the absent value). Python string code-point
comparison is modelled by an explicit lexicographic order on char lists.
-/

/-! ## Generic association-list operations (Python dict semantics) -/

/-- Lookup of the first binding of a key, as Python dict indexing. -/
def lookupAssoc {α : Type} : List (String × α) → String → Option α
  | [], _ => Option.none
  | (k2, v) :: l, k => if k2 = k then some v else lookupAssoc l k

/-- Setting a key: replace the first binding in place, else append.
This is exactly Python dict assignment, which keeps the position of an
existing key and appends a new key at the end. -/
def setAssoc {α : Type} : List (String × α) → String → α → List (String × α)
  | [], k, v => [(k, v)]
  | (k2, v2) :: l, k, v => if k2 = k then (k, v) :: l else (k2, v2) :: setAssoc l k v

/-- Removing every binding of a key; models dropping a DataFrame column
from each row. -/
def removeKey {α : Type} : List (String × α) → String → List (String × α)
  | [], _ => []
  | (k2, v2) :: l, k => if k2 = k then removeKey l k else (k2, v2) :: removeKey l k

/-- Python dict.update: fold the updates over the base mapping. -/
def dictUpdate {α : Type} (base upd : List (String × α)) : List (String × α) :=
  upd.foldl (fun acc kv => setAssoc acc kv.1 kv.2) base

/-- First-occurrence deduplication, the column-union order of pandas
concat and DataFrame construction from dicts. -/
def dedupFirst : List String → List String
  | [] => []
  | a :: l => a :: (dedupFirst l).filter (fun b => b ≠ a)

/-! ## String order and string helpers (kernel-computable) -/

/-- Lexicographic comparison of char lists by code point, as Python
compares strings. -/
def charsLe : List Char → List Char → Bool
  | [], _ => true
  | _ :: _, [] => false
  | a :: as, b :: bs =>
    if a.val.toNat < b.val.toNat then true
    else if b.val.toNat < a.val.toNat then false
    else charsLe as bs

/-- Code-point order on strings. -/
def strLe (a b : String) : Bool := charsLe a.data b.data

/-- Insertion into a sorted list under a boolean order. -/
def orderedInsertB {α : Type} (le : α → α → Bool) (a : α) : List α → List α
  | [] => [a]
  | b :: l => if le a b then a :: b :: l else b :: orderedInsertB le a l

/-- Insertion sort under a boolean order; models an ascending sort such
as pandas sort_values and sorted group keys. -/
def insSortB {α : Type} (le : α → α → Bool) : List α → List α
  | [] => []
  | a :: l => orderedInsertB le a (insSortB le l)

/-- Whitespace test for the characters Python str.strip removes in the
inputs of this program. -/
def isSpaceChar (c : Char) : Bool := c = ' ' || c = '\t' || c = '\n' || c = '\r'

/-- Trimming leading and trailing whitespace, as Python str.strip. -/
def trimChars (l : List Char) : List Char :=
  ((l.dropWhile isSpaceChar).reverse.dropWhile isSpaceChar).reverse

/-- Python str.strip on strings. -/
def strTrim (s : String) : String := ⟨trimChars s.data⟩

/-- Python str.isdigit: nonempty and all digits (restricted to ASCII
digits, the only digits appearing in this application). -/
def pyIsDigit (s : String) : Bool := !s.data.isEmpty && s.data.all Char.isDigit

/-- Numeric value of an all-digit char list, as Python int() on it. -/
def digitsToNat (l : List Char) : Nat := l.foldl (fun n c => 10 * n + (c.val.toNat - 48)) 0

/-! ## Cells, rows, sheets, workbooks -/

/-- One spreadsheet cell as read back by pandas: a numeric cell (with
the absent value NaN modelled as the missing alternative) or a text
cell. A whole column is numeric when every cell of it is numeric, which
models the pandas dtype test used by the aggregation reducer. -/
inductive Cell where
  | num (v : Option Int)
  | txt (s : String)
deriving DecidableEq, Repr

/-- Whether a cell is numeric (a number or NaN). -/
def Cell.isNum : Cell → Bool
  | .num _ => true
  | .txt _ => false

/-- Numeric contribution of a cell to a sum: NaN counts as zero, which
models the skipna behaviour of the pandas sum. (Text cells never reach
the sum because the reducer first checks the column dtype.) -/
def cellZ : Cell → Int
  | .num (some v) => v
  | .num Option.none => 0
  | .txt _ => 0

/-- One DataFrame row. The Role column is held structurally in the
field named role (in this program that column always carries the role
string); all other columns live in the cells association list in
insertion order. -/
structure Row where
  role : String
  cells : List (String × Cell)
deriving DecidableEq, Repr

/-- A sheet is its list of rows. -/
abbrev Sheet := List Row

/-- A workbook maps sheet names to sheets, in workbook order. -/
abbrev Workbook := List (String × Sheet)

/-- Reading one cell of a row by column name; a column missing from the
row reads as NaN, which models the NaN fill of pandas concat and of
DataFrame construction from dicts with differing key sets. -/
def getCell (r : Row) (c : String) : Cell :=
  (lookupAssoc r.cells c).getD (Cell.num Option.none)

/-- Column list of a table: first-appearance union of the row key sets
(the Role column is structural and not listed). -/
def colsOf (rows : List Row) : List String :=
  dedupFirst (rows.flatMap (fun r => r.cells.map Prod.fst))

/-- The pandas numeric-dtype test for a column of a table: every cell
in the column is numeric (a number or NaN). -/
def numericCol (rows : List Row) (c : String) : Bool :=
  rows.all (fun r => (getCell r c).isNum)

/-- The rows of a table carrying a given role, in table order: one
groupby group. -/
def groupRows (r : String) : List Row → List Row
  | [] => []
  | row :: l => if row.role = r then row :: groupRows r l else groupRows r l

/-! ## Program constants (from the source header) -/

def QUARTERS : List String := ["SoS", "Q1", "Q2", "Q3", "EoS"]

def RSP_FLOORS : List String := ["A2", "A3", "A4", "B2", "B3", "B4"]

def RSP_METRICS : List String := ["Headcount", "Piles", "Damages", "LAF", "ISS", "NONCON"]

def DOCK_METRICS : List String :=
  ["Headcount", "Piles", "Liquid Damages", "Dry Damages", "LAF", "ISS", "NC"]

def DAMAGELAND_METRICS : List String :=
  ["Headcount", "Backlog", "Damage Stow", "Received", "Deletes"]

def OTHER_ROLES : List String :=
  ["Customer Returns", "Inbound Support Services (ICQA)", "IOL", "GK"]

/-- The sheets read by the aggregation step, in its fixed order. -/
def QUARTER_SHEETS : List String := ["SoS", "Q1", "Q2", "Q3"]

/-! ## Workbook synchroniser and EoS resolver -/

/-- Dropping the Quarter column from one row. -/
def dropQuarterRow (r : Row) : Row := { r with cells := removeKey r.cells "Quarter" }

/-- Dropping the Quarter column from a sheet. The source guards the
drop by a presence test; dropping an absent column is the identity, so
the guard is absorbed. -/
def dropQuarterSheet (s : Sheet) : Sheet := s.map dropQuarterRow

/-- The source function save_quarter_to_excel: build a DataFrame from
the submitted records, drop the Quarter column when the target sheet is
EoS, and write it to the named sheet with full-replace semantics. -/
def save_quarter_to_excel (quarter : String) (records : List Row) (wb : Workbook) : Workbook :=
  setAssoc wb quarter (if quarter = "EoS" then dropQuarterSheet records else records)

/-- One aggregated cell: numeric columns (by the table-wide dtype test)
sum over the group with NaN as zero; other columns take the value of
the first row of the group. -/
def aggCell (combined g : List Row) (c : String) : Cell :=
  if numericCol combined c then
    Cell.num (some ((g.map (fun row => cellZ (getCell row c))).sum))
  else
    ((g.head?).map (fun row => getCell row c)).getD (Cell.num Option.none)

/-- The aggregated row of one role. -/
def aggRow (combined : List Row) (cs : List String) (r : String) : Row :=
  { role := r, cells := cs.map (fun c => (c, aggCell combined (groupRows r combined) c)) }

/-- The pandas groupby-aggregate over Role used by the EoS resolver:
group keys sorted ascending (the groupby default), one aggregated row
per role. -/
def groupAgg (combined : List Row) : List Row :=
  (insSortB strLe (dedupFirst (combined.map (fun r => r.role)))).map
    (aggRow combined (colsOf combined))

/-- The quarter sheets that exist in the workbook, in the fixed read
order SoS, Q1, Q2, Q3. -/
def existingQuarterSheets (wb : Workbook) : List Sheet :=
  QUARTER_SHEETS.filterMap (lookupAssoc wb)

/-- The concatenation of all existing quarter sheets (pandas concat). -/
def combinedOf (wb : Workbook) : List Row :=
  (existingQuarterSheets wb).flatMap (fun s => s)

/-- The source function aggregate_data. For an EoS submission: read the
EoS sheet, drop any Quarter column, write it back (a missing EoS sheet
raises in the source and is modelled as leaving the workbook alone).
Otherwise: read whichever of SoS, Q1, Q2, Q3 exist, concatenate them,
group by Role summing numeric columns and taking the first value of the
others, and replace the EoS sheet; when none of the four sheets exists,
nothing at all is written. -/
def aggregate_data (wb : Workbook) (current_quarter : String) : Workbook :=
  if current_quarter = "EoS" then
    match lookupAssoc wb "EoS" with
    | some df => setAssoc wb "EoS" (dropQuarterSheet df)
    | Option.none => wb
  else
    if (existingQuarterSheets wb).isEmpty then wb
    else setAssoc wb "EoS" (groupAgg (combinedOf wb))

/-- First row of a sheet carrying a given role. -/
def findRowByRole : Sheet → String → Option Row
  | [], _ => Option.none
  | row :: l, r => if row.role = r then some row else findRowByRole l r

/-- The cell at (role, column) of the EoS sheet after the resolve step. -/
def eosCellAfter (wb : Workbook) (q r c : String) : Option Cell :=
  match lookupAssoc (aggregate_data wb q) "EoS" with
  | some eos =>
    match findRowByRole eos r with
    | some row => some (getCell row c)
    | Option.none => Option.none
  | Option.none => Option.none

/-- Column list of a named sheet of a workbook. -/
def sheetColsAt (wb : Workbook) (n : String) : List String :=
  match lookupAssoc wb n with
  | some s => colsOf s
  | Option.none => []

/-! ## The in-memory dataset (shift_data) and the durable store -/

/-- One JSON-serialisable field value of a record held in shift_data:
an integer count, the null value (Python None), or a string such as a
role name or floor code. -/
inductive PyVal where
  | int (n : Int)
  | null
  | str (s : String)
deriving DecidableEq, Repr

/-- One record: a Python dict from field names to values, in insertion
order. -/
abbrev Record := List (String × PyVal)

/-- One quarter of the dataset: role name to record. -/
abbrev RoleMap := List (String × Record)

/-- The dataset: quarter name to role map, in insertion order. -/
abbrev Dataset := List (String × RoleMap)

/-! ## Delta engine (compute_deltas_between) -/

/-- The numeric coercion applied to one side of a delta comparison:
a missing key or a null value contributes zero; an integer contributes
its value; a string raises in the source (float of a role or floor
name), which skips the pair and is modelled by the missing result. -/
def coerceVal : Option PyVal → Option ℚ
  | Option.none => some 0
  | some PyVal.null => some 0
  | some (PyVal.int n) => some ((n : ℤ) : ℚ)
  | some (PyVal.str _) => Option.none

/-- One row of the difference table. -/
structure DeltaRow where
  role : String
  metric : String
  oldVal : ℚ
  newVal : ℚ
  diff : ℚ
  pct : ℚ
deriving DecidableEq, Repr

/-- Rendering of a rational in a summary line. The Python source
formats floats (percent with one decimal); the exact float rendering is
abstracted by the Lean rational rendering, which no claim inspects. -/
def formatRat (x : ℚ) : String := toString x

/-- One summary line of the delta report. -/
def formatLine (r : DeltaRow) : String :=
  r.role ++ " - " ++ r.metric ++ ": " ++ formatRat r.oldVal ++ " -> " ++ formatRat r.newVal
    ++ " | Diff: " ++ formatRat r.diff ++ " | " ++ formatRat r.pct ++ "%"

/-- Difference rows contributed by one role: iterate the metric keys of
the old record in dict order, coerce both sides, skip a pair when
either side raises, and otherwise emit the difference row with the
explicit zero-division guard on the percent change. The roles iterated
by the caller are common to both quarters, so both role lookups
succeed; an out-of-set role contributes nothing. -/
def deltaRowsForRole (roles1 roles2 : RoleMap) (role : String) : List DeltaRow :=
  match lookupAssoc roles1 role, lookupAssoc roles2 role with
  | some data1, some data2 =>
    data1.flatMap (fun kv =>
      match coerceVal (some kv.2), coerceVal (lookupAssoc data2 kv.1) with
      | some o, some n =>
        [{ role := role, metric := kv.1, oldVal := o, newVal := n,
           diff := n - o, pct := if o ≠ 0 then (n - o) / o * 100 else 0 }]
      | _, _ => [])
  | _, _ => []

/-- The role names common to both quarters, the membership of the
Python set intersection the source iterates. Iteration order over that
set is incidental (hash dependent); the engine below therefore takes
the enumeration order as an explicit parameter. -/
def common_roles (roles1 roles2 : RoleMap) : List String :=
  (roles1.map Prod.fst).filter (fun r => (roles2.map Prod.fst).contains r)

/-- The difference table: the rows contributed by the iterated roles,
in iteration order. -/
def deltaTable (roles1 roles2 : RoleMap) (order : List String) : List DeltaRow :=
  order.flatMap (deltaRowsForRole roles1 roles2)

/-- The summary text: one line per difference row, or the fixed
sentinel when the table is empty. -/
def deltaSummary (rows : List DeltaRow) : String :=
  if rows.isEmpty then "No common numeric data found."
  else String.intercalate "\n" (rows.map formatLine)

/-- The source function compute_deltas_between, parameterised by the
enumeration order of the common-role set iterated by the source. When
either quarter is missing from the dataset it returns the fixed
message and the empty table; otherwise one difference row per
comparable (role, metric) pair and one summary line per row, or the
fixed sentinel for an empty table. -/
def compute_deltas_core (ds : Dataset) (q1 q2 : String) (order : List String) :
    String × List DeltaRow :=
  match lookupAssoc ds q1, lookupAssoc ds q2 with
  | some roles1, some roles2 =>
    (deltaSummary (deltaTable roles1 roles2 order), deltaTable roles1 roles2 order)
  | _, _ => ("One or both quarters are not available.", [])

/-! ## Summary builder (update_shift_changes_summary) -/

/-- The fixed quarter rank of the summary sort; unrecognised values get
rank 99 and sort last. -/
def quarterRankStr : String → Nat
  | "SoS" => 1
  | "Q1" => 2
  | "Q2" => 3
  | "Q3" => 4
  | "EoS" => 5
  | _ => 99

/-- Rank of a Quarter cell value: non-string values fall to the
default 99 of the rank lookup. -/
def rankOfVal : PyVal → Nat
  | PyVal.str s => quarterRankStr s
  | _ => 99

/-- Sort rank of a summary row, read from its Quarter column. -/
def rowRank (r : Record) : Nat :=
  rankOfVal ((lookupAssoc r "Quarter").getD PyVal.null)

/-- Role sort key of a summary row, read from its Role column (records
of this program always carry a string there; other shapes are
abstracted to the empty string). -/
def rowRole (r : Record) : String :=
  match lookupAssoc r "Role" with
  | some (PyVal.str s) => s
  | _ => ""

/-- The total boolean order of the summary sort: quarter rank first,
then role lexicographically. -/
def summaryLE (a b : Record) : Bool :=
  decide (rowRank a < rowRank b) ||
    (decide (rowRank a = rowRank b) && strLe (rowRole a) (rowRole b))

/-- The flattened rows of the whole dataset: one row per (quarter,
role), the quarter key written first and then overridden by the record
fields (dict update), exactly as the source builds each summary row. -/
def shiftChangesRows (ds : Dataset) : List Record :=
  ds.flatMap (fun qr => qr.2.map (fun rr => dictUpdate [("Quarter", PyVal.str qr.1)] rr.2))

/-- A summary row with the helper QuarterOrder column added. -/
def withOrder (r : Record) : Record :=
  setAssoc r "QuarterOrder" (PyVal.int (rowRank r))

/-- The table written to the Shift Changes sheet: flatten the dataset,
add the helper QuarterOrder rank column, sort by (rank, Role), drop the
helper column. An empty dataset gives the empty table (the source skips
the sort when the frame has no Quarter column). -/
def shiftChangesTable (ds : Dataset) : List Record :=
  let rows := shiftChangesRows ds
  if rows.isEmpty then []
  else (insSortB summaryLE (rows.map withOrder)).map (fun r => removeKey r "QuarterOrder")

/-- Conversion of a summary record to a sheet row for the workbook
write: the Role column becomes the structural role field, null becomes
NaN, integers and strings become numeric and text cells. -/
def pyCell : PyVal → Cell
  | PyVal.int n => Cell.num (some n)
  | PyVal.null => Cell.num Option.none
  | PyVal.str s => Cell.txt s

/-- Role string of a record (see rowRole). -/
def recRole (rec : Record) : String := rowRole rec

/-- Sheet row of a summary record. -/
def rowOfRecord (rec : Record) : Row :=
  { role := recRole rec, cells := (removeKey rec "Role").map (fun kv => (kv.1, pyCell kv.2)) }

/-- The source function update_shift_changes_summary: build the sorted
summary table from the dataset and replace the Shift Changes sheet with
it. -/
def update_shift_changes_summary (ds : Dataset) (wb : Workbook) : Workbook :=
  setAssoc wb "Shift Changes" ((shiftChangesTable ds).map rowOfRecord)

/-! ## The merge step of the file importer (import_files) -/

/-- One row of an imported sheet: the Role cell (the dict key the merge
uses) and the full row dict stored as the record. -/
structure ImportRow where
  role : String
  fields : Record
deriving DecidableEq, Repr

/-- One sheet of an imported workbook: its column list (from the header
row) and its data rows. -/
structure ImportSheet where
  cols : List String
  rows : List ImportRow
deriving DecidableEq, Repr

/-- The per-quarter dict built from an imported sheet: one entry per
row keyed by its role, later rows overwriting earlier ones. -/
def buildQuarterDict (rows : List ImportRow) : RoleMap :=
  rows.foldl (fun acc r => setAssoc acc r.role r.fields) []

/-- One iteration of the import loop for quarter q: when the workbook
has a sheet named q that is nonempty and carries a Role column, the
dataset entry for q is assigned the dict built from that sheet;
otherwise the dataset is untouched. -/
def import_step (wbS : List (String × ImportSheet)) (d : Dataset) (q : String) : Dataset :=
  match lookupAssoc wbS q with
  | some sh =>
    if !sh.rows.isEmpty && sh.cols.contains "Role" then
      setAssoc d q (buildQuarterDict sh.rows)
    else d
  | Option.none => d

/-- The merge phase of the source function import_files: fold the
per-quarter step over the five quarters of the selected workbook. -/
def import_files_merge (ds : Dataset) (wbS : List (String × ImportSheet)) : Dataset :=
  QUARTERS.foldl (import_step wbS) ds

/-! ## Data entry (collect_data) and the submission pipeline -/

/-- The source function validate_numeric: blank after stripping, or an
all-digit string. -/
def validate_numeric (s : String) : Bool :=
  (strTrim s).data.isEmpty || pyIsDigit (strTrim s)

/-- The metric-entry conversion of collect_data: strip the entry text;
a nonempty all-digit value becomes its integer, anything else becomes
the absent value (None). -/
def parseCount (raw : String) : Option Int :=
  let v := strTrim raw
  if !v.data.isEmpty && validate_numeric v then some (Int.ofNat (digitsToNat v.data))
  else Option.none

/-- Python int() with a fallback of zero on failure, applied by
collect_data to the GUI total variables (which carry digit strings). -/
def pyIntOr0 (s : String) : Int :=
  if pyIsDigit (strTrim s) then Int.ofNat (digitsToNat (strTrim s).data) else 0

/-- The source function collect_data, parameterised by the text of the
GUI entry fields: one record per RSP floor, the two RSP total records,
Dock, Damageland, one record per other role, and the non-RSP total
record, in that order. Every record carries the Quarter key; the Role
key is held structurally and the Floor key is the floor code or blank. -/
def collect_data (q : String) (rspE : String → String → String)
    (dockE dmgE otherE : String → String) (rspHeadTot nonRspHeadTot : String) : List Row :=
  let rspRows : List Row := RSP_FLOORS.map (fun floor =>
    { role := "RSP (" ++ floor ++ ")",
      cells := [("Quarter", Cell.txt q), ("Floor", Cell.txt floor)] ++
        RSP_METRICS.map (fun m => (m, Cell.num (parseCount (rspE floor m)))) })
  let totalPiles : Int := (RSP_FLOORS.map (fun f =>
    if pyIsDigit (strTrim (rspE f "Piles")) then
      Int.ofNat (digitsToNat (strTrim (rspE f "Piles")).data)
    else 0)).sum
  let rspTotalRow : Row :=
    { role := "RSP (Total)",
      cells := [("Quarter", Cell.txt q), ("Floor", Cell.txt ""),
                ("Piles", Cell.num (some totalPiles))] }
  let rspHeadRow : Row :=
    { role := "RSP (Headcount Total)",
      cells := [("Quarter", Cell.txt q), ("Floor", Cell.txt ""),
                ("Headcount", Cell.num (some (pyIntOr0 rspHeadTot)))] }
  let dockRow : Row :=
    { role := "Dock",
      cells := [("Quarter", Cell.txt q), ("Floor", Cell.txt "")] ++
        DOCK_METRICS.map (fun m => (m, Cell.num (parseCount (dockE m)))) }
  let dmgRow : Row :=
    { role := "Damageland",
      cells := [("Quarter", Cell.txt q), ("Floor", Cell.txt "")] ++
        DAMAGELAND_METRICS.map (fun m => (m, Cell.num (parseCount (dmgE m)))) }
  let otherRows : List Row := OTHER_ROLES.map (fun role =>
    { role := role,
      cells := [("Quarter", Cell.txt q), ("Floor", Cell.txt ""),
                ("Headcount", Cell.num (parseCount (otherE role)))] })
  let nonRspRow : Row :=
    { role := "Non-RSP (Headcount Total)",
      cells := [("Quarter", Cell.txt q), ("Floor", Cell.txt ""),
                ("Headcount", Cell.num (some (pyIntOr0 nonRspHeadTot)))] }
  rspRows ++ [rspTotalRow, rspHeadRow, dockRow, dmgRow] ++ otherRows ++ [nonRspRow]

/-- The state the engine acts on: the in-memory dataset (shift_data),
the durable JSON store (its parsed contents, or the missing alternative
when the file does not exist), and the Excel workbook of the active
shift. -/
structure AppState where
  mem : Dataset
  store : Option Dataset
  wb : Workbook
deriving Repr

/-- The source function create_new_workbook: the fixed sheet set, all
sheets empty. -/
def create_new_workbook : Workbook :=
  [("SoS", []), ("Q1", []), ("Q2", []), ("Q3", []), ("EoS", []), ("Wash", []),
   ("Shift Changes", [])]

/-- The source function submit_data on the engine state: write the
quarter sheet, resolve EoS, rewrite the change-log sheet from the
in-memory dataset, then call load_data_from_json, which replaces the
in-memory dataset with the store contents when the store file exists.
No step of the source writes the JSON store during a submission. -/
def submit_data (st : AppState) (quarter : String) (records : List Row) : AppState :=
  let wb1 := save_quarter_to_excel quarter records st.wb
  let wb2 := aggregate_data wb1 quarter
  let wb3 := update_shift_changes_summary st.mem wb2
  { mem := st.store.getD st.mem, store := st.store, wb := wb3 }

/-- The state effect of the source function import_files after file
selection: merge the chosen workbook into the in-memory dataset and
save the result to the JSON store (a full overwrite). -/
def import_files_update (st : AppState) (wbS : List (String × ImportSheet)) : AppState :=
  let d := import_files_merge st.mem wbS
  { mem := d, store := some d, wb := st.wb }

/-! ## Concrete inputs used by witnesses and counterexamples -/

/-- A dataset carrying a role whose old value is zero and new value
five, the zero-division example of the specification. -/
def dsZeroOld : Dataset :=
  [("SoS", [("Dock", [("Headcount", PyVal.int 0)])]),
   ("Q1", [("Dock", [("Headcount", PyVal.int 5)])])]

/-- A start-of-shift role map with two roles. -/
def rolesSoS : RoleMap := [("A", [("Headcount", PyVal.int 1)]), ("B", [("Headcount", PyVal.int 2)])]

/-- A first-quarter role map with the same two roles. -/
def rolesQ1 : RoleMap := [("A", [("Headcount", PyVal.int 3)]), ("B", [("Headcount", PyVal.int 4)])]

/-- A dataset in which the roles A and B are common to SoS and Q1. -/
def dsTwoRoles : Dataset := [("SoS", rolesSoS), ("Q1", rolesQ1)]

/-- A dataset holding role A under quarter Q1 before an attempted
merge. -/
def dsPrior : Dataset := [("Q1", [("A", [("Role", PyVal.str "A"), ("Headcount", PyVal.int 1)])])]

/-- An imported workbook whose Q1 sheet lists only role B. -/
def wbImported : List (String × ImportSheet) :=
  [("Q1", { cols := ["Role", "Headcount"],
            rows := [{ role := "B",
                       fields := [("Role", PyVal.str "B"), ("Headcount", PyVal.int 2)] }] })]

/-- The record batch of a Q1 submission with every entry field blank
and both GUI totals showing zero. -/
def submittedQ1Records : List Row :=
  collect_data "Q1" (fun _ _ => "") (fun _ => "") (fun _ => "") (fun _ => "") "0" "0"

/-- The engine state after submitting that batch for Q1 on a fresh
workbook with an empty dataset and an empty store file. -/
def stateAfterQ1 : AppState :=
  submit_data { mem := [], store := some [], wb := create_new_workbook } "Q1" submittedQ1Records

/-- A workbook in which none of the four quarter sheets exists. -/
def wbNoQuarterSheets : Workbook :=
  [("EoS", [{ role := "Dock", cells := [("Headcount", Cell.num (some 3))] }]), ("Wash", [])]

/-- A workbook whose SoS and Q1 sheets both carry a Dock row. -/
def wbTwoQuarters : Workbook :=
  [("SoS", [{ role := "Dock", cells := [("Floor", Cell.txt ""), ("Headcount", Cell.num (some 5))] }]),
   ("Q1", [{ role := "Dock", cells := [("Floor", Cell.txt ""), ("Headcount", Cell.num (some 7))] }]),
   ("EoS", [])]

/-! ## Helper lemmas on the generic operations -/

theorem lookupAssoc_setAssoc_self {α : Type} (l : List (String × α)) (k : String) (v : α) :
    lookupAssoc (setAssoc l k v) k = some v := by
  induction l with
  | nil => simp [setAssoc, lookupAssoc]
  | cons kv t ih =>
    obtain ⟨k2, v2⟩ := kv
    by_cases h : k2 = k
    · subst h
      simp [setAssoc, lookupAssoc]
    · simp [setAssoc, lookupAssoc, h, ih]

theorem lookupAssoc_setAssoc_ne {α : Type} (l : List (String × α)) (k k2 : String) (v : α)
    (h : k2 ≠ k) : lookupAssoc (setAssoc l k v) k2 = lookupAssoc l k2 := by
  induction l with
  | nil =>
    simp only [setAssoc, lookupAssoc]
    rw [if_neg (fun hh => h hh.symm)]
  | cons kv t ih =>
    obtain ⟨k3, v3⟩ := kv
    by_cases h3 : k3 = k
    · subst h3
      simp only [setAssoc, if_pos rfl, lookupAssoc]
      rw [if_neg (fun hh => h hh.symm), if_neg (fun hh => h hh.symm)]
    · simp only [setAssoc, if_neg h3, lookupAssoc]
      by_cases h4 : k3 = k2
      · simp [h4]
      · simp [h4, ih]

theorem lookupAssoc_removeKey_ne {α : Type} (l : List (String × α)) (k k2 : String)
    (h : k2 ≠ k) : lookupAssoc (removeKey l k) k2 = lookupAssoc l k2 := by
  induction l with
  | nil => simp [removeKey]
  | cons kv t ih =>
    obtain ⟨k3, v3⟩ := kv
    by_cases h3 : k3 = k
    · subst h3
      have hrk : removeKey ((k3, v3) :: t) k3 = removeKey t k3 := by
        simp [removeKey]
      rw [hrk, ih]
      simp only [lookupAssoc]
      rw [if_neg (fun hh => h hh.symm)]
    · simp only [removeKey, if_neg h3, lookupAssoc]
      by_cases h4 : k3 = k2
      · simp [h4]
      · simp [h4, ih]

theorem removeKey_removeKey {α : Type} (l : List (String × α)) (k : String) :
    removeKey (removeKey l k) k = removeKey l k := by
  induction l with
  | nil => simp [removeKey]
  | cons kv t ih =>
    obtain ⟨k3, v3⟩ := kv
    by_cases h3 : k3 = k
    · simp [removeKey, h3, ih]
    · simp [removeKey, h3, ih]

theorem not_mem_keys_removeKey {α : Type} (l : List (String × α)) (k : String) :
    k ∉ (removeKey l k).map Prod.fst := by
  induction l with
  | nil => simp [removeKey]
  | cons kv t ih =>
    obtain ⟨k3, v3⟩ := kv
    by_cases h3 : k3 = k
    · simpa [removeKey, h3] using ih
    · simp only [removeKey, if_neg h3, List.map_cons, List.mem_cons]
      rintro (h | h)
      · exact h3 h.symm
      · exact ih h

theorem mem_dedupFirst {a : String} : ∀ {l : List String}, a ∈ dedupFirst l ↔ a ∈ l := by
  intro l
  induction l with
  | nil => simp [dedupFirst]
  | cons b t ih =>
    by_cases hab : a = b
    · subst hab
      simp [dedupFirst]
    · simp [dedupFirst, List.mem_filter, hab, ih]

theorem mem_orderedInsertB {α : Type} (le : α → α → Bool) (a x : α) :
    ∀ (l : List α), x ∈ orderedInsertB le a l ↔ x = a ∨ x ∈ l := by
  intro l
  induction l with
  | nil => simp [orderedInsertB]
  | cons b t ih =>
    by_cases h : le a b
    · simp only [orderedInsertB, if_pos h, List.mem_cons]
      try tauto
    · simp only [orderedInsertB, if_neg h, List.mem_cons, ih]
      try tauto

theorem mem_insSortB {α : Type} (le : α → α → Bool) (x : α) :
    ∀ (l : List α), x ∈ insSortB le l ↔ x ∈ l := by
  intro l
  induction l with
  | nil => simp [insSortB]
  | cons b t ih =>
    simp only [insSortB, mem_orderedInsertB, ih, List.mem_cons]
    try tauto

theorem pairwise_orderedInsertB {α : Type} (le : α → α → Bool)
    (total : ∀ a b, le a b = true ∨ le b a = true)
    (htrans : ∀ a b c, le a b = true → le b c = true → le a c = true)
    (a : α) : ∀ (l : List α), l.Pairwise (fun x y => le x y = true) →
      (orderedInsertB le a l).Pairwise (fun x y => le x y = true) := by
  intro l
  induction l with
  | nil => simp [orderedInsertB]
  | cons b t ih =>
    intro h
    rcases List.pairwise_cons.mp h with ⟨hb, ht⟩
    by_cases hab : le a b
    · simp only [orderedInsertB, if_pos hab]
      refine List.pairwise_cons.mpr ⟨?_, h⟩
      intro x hx
      rcases List.mem_cons.mp hx with rfl | hx
      · exact hab
      · exact htrans a b x hab (hb x hx)
    · simp only [orderedInsertB, if_neg hab]
      refine List.pairwise_cons.mpr ⟨?_, ih ht⟩
      intro x hx
      rcases (mem_orderedInsertB le a x t).mp hx with rfl | hx
      · rcases total x b with h1 | h1
        · exact absurd h1 hab
        · exact h1
      · exact hb x hx

theorem pairwise_insSortB {α : Type} (le : α → α → Bool)
    (total : ∀ a b, le a b = true ∨ le b a = true)
    (htrans : ∀ a b c, le a b = true → le b c = true → le a c = true) :
    ∀ (l : List α), (insSortB le l).Pairwise (fun x y => le x y = true) := by
  intro l
  induction l with
  | nil => simp [insSortB]
  | cons b t ih => exact pairwise_orderedInsertB le total htrans b _ ih

theorem charsLe_total : ∀ (a b : List Char), charsLe a b = true ∨ charsLe b a = true := by
  intro a
  induction a with
  | nil =>
    intro b
    left
    simp [charsLe]
  | cons c as ih =>
    intro b
    cases b with
    | nil =>
      right
      simp [charsLe]
    | cons d bs =>
      rcases Nat.lt_trichotomy c.val.toNat d.val.toNat with h | h | h
      · left
        simp [charsLe, h]
      · have h1 : ¬ c.val.toNat < d.val.toNat := by omega
        have h2 : ¬ d.val.toNat < c.val.toNat := by omega
        rcases ih bs with h3 | h3
        · left
          simp [charsLe, h1, h2, h3]
        · right
          simp [charsLe, h1, h2, h3]
      · right
        simp [charsLe, h]

theorem charsLe_trans : ∀ (a b c : List Char),
    charsLe a b = true → charsLe b c = true → charsLe a c = true := by
  intro a
  induction a with
  | nil =>
    intro b c _ _
    simp [charsLe]
  | cons x as ih =>
    intro b c hab hbc
    cases b with
    | nil => simp [charsLe] at hab
    | cons y bs =>
      cases c with
      | nil => simp [charsLe] at hbc
      | cons z cs =>
        simp only [charsLe] at hab hbc ⊢
        by_cases h1 : x.val.toNat < y.val.toNat
        · by_cases h2 : y.val.toNat < z.val.toNat
          · have : x.val.toNat < z.val.toNat := by omega
            simp [this]
          · by_cases h3 : z.val.toNat < y.val.toNat
            · simp [h2, h3] at hbc
            · have hyz : y.val.toNat = z.val.toNat := by omega
              have : x.val.toNat < z.val.toNat := by omega
              simp [this]
        · by_cases h4 : y.val.toNat < x.val.toNat
          · simp [h1, h4] at hab
          · have hxy : x.val.toNat = y.val.toNat := by omega
            by_cases h2 : y.val.toNat < z.val.toNat
            · have : x.val.toNat < z.val.toNat := by omega
              simp [this]
            · by_cases h3 : z.val.toNat < y.val.toNat
              · simp [h2, h3] at hbc
              · have h5 : ¬ x.val.toNat < z.val.toNat := by omega
                have h6 : ¬ z.val.toNat < x.val.toNat := by omega
                simp [h1, h4] at hab
                simp [h2, h3] at hbc
                simp [h5, h6]
                exact ih bs cs hab hbc

theorem strLe_total (a b : String) : strLe a b = true ∨ strLe b a = true :=
  charsLe_total a.data b.data

theorem strLe_trans (a b c : String) :
    strLe a b = true → strLe b c = true → strLe a c = true :=
  charsLe_trans a.data b.data c.data

/-! ## Lemmas on the EoS resolver -/

theorem lookupAssoc_map_pair (cs : List String) (f : String → Cell) (c : String) (h : c ∈ cs) :
    lookupAssoc (cs.map (fun c2 => (c2, f c2))) c = some (f c) := by
  induction cs with
  | nil => cases h
  | cons a t ih =>
    simp only [List.map_cons, lookupAssoc]
    by_cases hac : a = c
    · subst hac
      simp
    · rw [if_neg hac]
      rcases List.mem_cons.mp h with h2 | h2
      · exact absurd h2.symm hac
      · exact ih h2

theorem aggRow_role (combined : List Row) (cs : List String) (r : String) :
    (aggRow combined cs r).role = r := rfl

theorem findRowByRole_map_aggRow (combined : List Row) (cs : List String)
    (roles : List String) (r : String) (h : r ∈ roles) :
    findRowByRole (roles.map (aggRow combined cs)) r = some (aggRow combined cs r) := by
  induction roles with
  | nil => cases h
  | cons a t ih =>
    simp only [List.map_cons, findRowByRole, aggRow_role]
    by_cases har : a = r
    · subst har
      rw [if_pos rfl]
    · rw [if_neg har]
      rcases List.mem_cons.mp h with h2 | h2
      · exact absurd h2.symm har
      · exact ih h2

theorem dropQuarterRow_idem (r : Row) :
    dropQuarterRow (dropQuarterRow r) = dropQuarterRow r := by
  simp [dropQuarterRow, removeKey_removeKey]

theorem dropQuarterSheet_idem (s : Sheet) :
    dropQuarterSheet (dropQuarterSheet s) = dropQuarterSheet s := by
  unfold dropQuarterSheet
  rw [List.map_map]
  exact List.map_congr_left (fun a _ => dropQuarterRow_idem a)

/-! ## Claim theorems: EoS resolver -/

/-- Claim C2. For a submission of a quarter other than EoS, the resolve
step rebuilds the EoS sheet from the existing SoS, Q1, Q2, Q3 sheets:
for every role present in their concatenation and every column of that
concatenation, the EoS row of that role carries the sum of the role
values of a numeric column (missing values counting as zero) and the
value of the first contributing row in group order for a non-numeric
column. -/
theorem eos_resolver_sums_by_role (wb : Workbook) (q r c : String) (hq : q ≠ "EoS")
    (hr : r ∈ (combinedOf wb).map (fun row => row.role))
    (hc : c ∈ colsOf (combinedOf wb)) :
    eosCellAfter wb q r c =
      some (if numericCol (combinedOf wb) c then
        Cell.num (some (((groupRows r (combinedOf wb)).map (fun row => cellZ (getCell row c))).sum))
      else
        (((groupRows r (combinedOf wb)).head?).map (fun row => getCell row c)).getD
          (Cell.num Option.none)) := by
  have hcomb : ¬ (existingQuarterSheets wb).isEmpty := by
    intro hemp
    rw [List.isEmpty_iff] at hemp
    rw [List.mem_map] at hr
    rcases hr with ⟨row, hrow, _⟩
    rw [combinedOf, hemp] at hrow
    simp at hrow
  have hagg : aggregate_data wb q = setAssoc wb "EoS" (groupAgg (combinedOf wb)) := by
    rw [aggregate_data, if_neg hq, if_neg hcomb]
  have hrs : r ∈ insSortB strLe (dedupFirst ((combinedOf wb).map (fun row => row.role))) := by
    rw [mem_insSortB, mem_dedupFirst]
    exact hr
  unfold eosCellAfter
  rw [hagg, lookupAssoc_setAssoc_self]
  dsimp only
  unfold groupAgg
  rw [findRowByRole_map_aggRow _ _ _ _ hrs]
  dsimp only
  show some (getCell (aggRow (combinedOf wb) (colsOf (combinedOf wb)) r) c) = _
  unfold aggRow getCell
  rw [lookupAssoc_map_pair _ _ _ hc]
  rfl

/-- Witness for C2: with Dock rows of headcount 5 in SoS and 7 in Q1,
the resolved EoS Dock headcount is 12. -/
theorem eos_resolver_sums_witness :
    eosCellAfter wbTwoQuarters "Q1" "Dock" "Headcount" = some (Cell.num (some 12)) :=
  (eos_resolver_sums_by_role wbTwoQuarters "Q1" "Dock" "Headcount" (by decide) (by decide)
    (by decide)).trans (by decide)

/-- Claim C8. The EoS passthrough of the resolve step is idempotent:
resolving with submitted quarter EoS twice leaves the same EoS sheet
contents as resolving once. -/
theorem eos_passthrough_idempotent (wb : Workbook) :
    lookupAssoc (aggregate_data (aggregate_data wb "EoS") "EoS") "EoS" =
      lookupAssoc (aggregate_data wb "EoS") "EoS" := by
  have h1 : ∀ (w : Workbook), aggregate_data w "EoS" =
      (match lookupAssoc w "EoS" with
       | some df => setAssoc w "EoS" (dropQuarterSheet df)
       | Option.none => w) := by
    intro w
    rw [aggregate_data, if_pos rfl]
  cases h : lookupAssoc wb "EoS" with
  | none =>
    have h2 : aggregate_data wb "EoS" = wb := by rw [h1 wb, h]
    simp only [h2]
  | some df =>
    have ha : aggregate_data wb "EoS" = setAssoc wb "EoS" (dropQuarterSheet df) := by
      rw [h1 wb, h]
    have hb : lookupAssoc (aggregate_data wb "EoS") "EoS" = some (dropQuarterSheet df) := by
      rw [ha, lookupAssoc_setAssoc_self]
    have hc2 : aggregate_data (aggregate_data wb "EoS") "EoS" =
        setAssoc (aggregate_data wb "EoS") "EoS" (dropQuarterSheet (dropQuarterSheet df)) := by
      rw [h1 (aggregate_data wb "EoS"), hb]
    rw [hc2, lookupAssoc_setAssoc_self, hb, dropQuarterSheet_idem]

/-- Claim C10. When the submitted quarter is not EoS and none of the
sheets SoS, Q1, Q2, Q3 exists in the workbook, the resolve step writes
nothing at all: the whole workbook, the EoS sheet included, is exactly
as before. -/
theorem aggregate_skips_without_quarter_sheets (wb : Workbook) (q : String) (hq : q ≠ "EoS")
    (h : ∀ n ∈ QUARTER_SHEETS, lookupAssoc wb n = Option.none) :
    aggregate_data wb q = wb := by
  have he : existingQuarterSheets wb = [] := by
    rw [existingQuarterSheets]
    exact List.filterMap_eq_nil_iff.mpr h
  rw [aggregate_data, if_neg hq, he]
  simp

/-- Witness for C10 on a workbook holding only an EoS sheet and the
reserved Wash sheet. -/
theorem aggregate_skips_witness :
    ("Q1" : String) ≠ "EoS" ∧ aggregate_data wbNoQuarterSheets "Q1" = wbNoQuarterSheets :=
  ⟨by decide, aggregate_skips_without_quarter_sheets wbNoQuarterSheets "Q1" (by decide) (by decide)⟩

/-! ## Claim theorems: delta engine -/

/-- Claim C5. Every row of any difference table satisfies the delta
formulas with the explicit zero-division guard: the difference is new
minus old, and the percent change is (new - old) / old times 100 when
the old value is nonzero and exactly zero when the old value is zero. -/
theorem delta_row_formula (ds : Dataset) (q1 q2 : String) (order : List String) (row : DeltaRow)
    (h : row ∈ (compute_deltas_core ds q1 q2 order).2) :
    row.diff = row.newVal - row.oldVal ∧
    row.pct = if row.oldVal = 0 then 0 else (row.newVal - row.oldVal) / row.oldVal * 100 := by
  unfold compute_deltas_core at h
  cases h1 : lookupAssoc ds q1 with
  | none =>
    rw [h1] at h
    cases h2 : lookupAssoc ds q2 <;> rw [h2] at h <;> simp at h
  | some roles1 =>
    cases h2 : lookupAssoc ds q2 with
    | none =>
      rw [h1, h2] at h
      simp at h
    | some roles2 =>
      rw [h1, h2] at h
      dsimp only at h
      unfold deltaTable at h
      rw [List.mem_flatMap] at h
      rcases h with ⟨role, _, hrole⟩
      unfold deltaRowsForRole at hrole
      cases h3 : lookupAssoc roles1 role with
      | none =>
        rw [h3] at hrole
        cases h4 : lookupAssoc roles2 role <;> rw [h4] at hrole <;> simp at hrole
      | some data1 =>
        cases h4 : lookupAssoc roles2 role with
        | none =>
          rw [h3, h4] at hrole
          simp at hrole
        | some data2 =>
          rw [h3, h4] at hrole
          dsimp only at hrole
          rw [List.mem_flatMap] at hrole
          rcases hrole with ⟨kv, _, hkv⟩
          cases h5 : coerceVal (some kv.2) with
          | none =>
            rw [h5] at hkv
            cases h6 : coerceVal (lookupAssoc data2 kv.1) <;> rw [h6] at hkv <;> simp at hkv
          | some o =>
            cases h6 : coerceVal (lookupAssoc data2 kv.1) with
            | none =>
              rw [h5, h6] at hkv
              simp at hkv
            | some n =>
              rw [h5, h6] at hkv
              simp only [List.mem_singleton] at hkv
              subst hkv
              refine ⟨rfl, ?_⟩
              by_cases ho : o = 0
              · simp [ho]
              · simp [ho]

/-- Witness for C5: a role whose old value is zero and new value five
yields difference five and percent change exactly zero. -/
theorem delta_row_formula_witness :
    ∃ row ∈ (compute_deltas_core dsZeroOld "SoS" "Q1" ["Dock"]).2,
      row.oldVal = 0 ∧ row.newVal = 5 ∧ row.diff = 5 ∧ row.pct = 0 := by
  have hmem : (⟨"Dock", "Headcount", ((0 : ℤ) : ℚ), ((5 : ℤ) : ℚ),
      ((5 : ℤ) : ℚ) - ((0 : ℤ) : ℚ),
      if ((0 : ℤ) : ℚ) ≠ 0 then (((5 : ℤ) : ℚ) - ((0 : ℤ) : ℚ)) / ((0 : ℤ) : ℚ) * 100
      else 0⟩ : DeltaRow) ∈ (compute_deltas_core dsZeroOld "SoS" "Q1" ["Dock"]).2 :=
    List.Mem.head _
  have h := delta_row_formula dsZeroOld "SoS" "Q1" ["Dock"] _ hmem
  refine ⟨_, hmem, ?_, ?_, ?_, ?_⟩
  · norm_num
  · norm_num
  · rw [h.1]
    norm_num
  · rw [h.2]
    norm_num

/-- Claim C6. When either requested quarter is absent from the
dataset, the delta engine returns the fixed not-available message
together with an empty table; the embedding is a total function, so
this condition raises nothing. -/
theorem delta_missing_quarter (ds : Dataset) (q1 q2 : String) (order : List String)
    (h : lookupAssoc ds q1 = Option.none ∨ lookupAssoc ds q2 = Option.none) :
    compute_deltas_core ds q1 q2 order = ("One or both quarters are not available.", []) := by
  unfold compute_deltas_core
  rcases h with h | h
  · rw [h]
  · cases h2 : lookupAssoc ds q1 with
    | none => rw [h]
    | some roles1 => rw [h]

/-- Witness for C6 on the empty dataset. -/
theorem delta_missing_quarter_witness :
    compute_deltas_core [] "SoS" "Q1" [] = ("One or both quarters are not available.", []) :=
  delta_missing_quarter [] "SoS" "Q1" [] (Or.inl rfl)

/-- Counterexample to claim C9. The output row order of the delta
engine follows the incidental enumeration order of the common-role
set, which the source does not fix: two enumerations of the same
common-role set produce difference tables with different row orders. -/
theorem delta_order_dependent :
    (["A", "B"].Perm (common_roles rolesSoS rolesQ1) ∧
      ["B", "A"].Perm (common_roles rolesSoS rolesQ1)) ∧
    (compute_deltas_core dsTwoRoles "SoS" "Q1" ["A", "B"]).2.map (fun r => r.role) ≠
      (compute_deltas_core dsTwoRoles "SoS" "Q1" ["B", "A"]).2.map (fun r => r.role) := by
  refine ⟨⟨by decide, by decide⟩, ?_⟩
  decide

/-- Amended C9. For a fixed enumeration order of the common-role set
(as within one process run) the output is a function of the dataset,
and permuting the enumeration order only permutes the difference
table. -/
theorem delta_table_perm_under_order_perm (ds : Dataset) (q1 q2 : String) (o1 o2 : List String)
    (h : o1.Perm o2) :
    ((compute_deltas_core ds q1 q2 o1).2).Perm ((compute_deltas_core ds q1 q2 o2).2) := by
  unfold compute_deltas_core
  cases h1 : lookupAssoc ds q1 with
  | none =>
    cases h2 : lookupAssoc ds q2 <;> exact List.Perm.refl _
  | some roles1 =>
    cases h2 : lookupAssoc ds q2 with
    | none => exact List.Perm.refl _
    | some roles2 =>
      dsimp only
      unfold deltaTable
      exact h.flatMap_right _

/-- Witness for the amended C9 at the two concrete enumerations. -/
theorem delta_table_perm_witness :
    ((compute_deltas_core dsTwoRoles "SoS" "Q1" ["A", "B"]).2).Perm
      ((compute_deltas_core dsTwoRoles "SoS" "Q1" ["B", "A"]).2) :=
  delta_table_perm_under_order_perm dsTwoRoles "SoS" "Q1" ["A", "B"] ["B", "A"] (by decide)

/-! ## Claim theorems: summary builder -/

theorem rowRank_removeKey_order (r : Record) :
    rowRank (removeKey r "QuarterOrder") = rowRank r := by
  unfold rowRank
  rw [lookupAssoc_removeKey_ne r "QuarterOrder" "Quarter" (by decide)]

theorem rowRole_removeKey_order (r : Record) :
    rowRole (removeKey r "QuarterOrder") = rowRole r := by
  unfold rowRole
  rw [lookupAssoc_removeKey_ne r "QuarterOrder" "Role" (by decide)]

theorem summaryLE_total (a b : Record) : summaryLE a b = true ∨ summaryLE b a = true := by
  unfold summaryLE
  rcases Nat.lt_trichotomy (rowRank a) (rowRank b) with h | h | h
  · left
    simp [h]
  · rcases strLe_total (rowRole a) (rowRole b) with h2 | h2
    · left
      simp [h, h2]
    · right
      simp [h, h2]
  · right
    simp [h]

theorem summaryLE_trans (a b c : Record) :
    summaryLE a b = true → summaryLE b c = true → summaryLE a c = true := by
  unfold summaryLE
  intro hab hbc
  simp only [Bool.or_eq_true, Bool.and_eq_true, decide_eq_true_eq] at hab hbc ⊢
  rcases hab with h1 | ⟨h1, h2⟩
  · rcases hbc with h3 | ⟨h3, h4⟩
    · left
      omega
    · left
      omega
  · rcases hbc with h3 | ⟨h3, h4⟩
    · left
      omega
    · right
      exact ⟨by omega, strLe_trans _ _ _ h2 h4⟩

/-- Claim C7. The table the summary builder writes to the Shift
Changes sheet is sorted by quarter rank (SoS 1, Q1 2, Q2 3, Q3 4,
EoS 5, anything else 99) with the Role string in code-point order as
the tie break, and the helper QuarterOrder rank column never appears
in the output. -/
theorem shift_changes_sorted (ds : Dataset) :
    (shiftChangesTable ds).Pairwise (fun a b =>
      rowRank a < rowRank b ∨ (rowRank a = rowRank b ∧ strLe (rowRole a) (rowRole b) = true)) ∧
    ∀ r ∈ shiftChangesTable ds, "QuarterOrder" ∉ r.map Prod.fst := by
  unfold shiftChangesTable
  by_cases hemp : (shiftChangesRows ds).isEmpty
  · simp [hemp]
  · rw [if_neg hemp]
    constructor
    · have hp := pairwise_insSortB summaryLE summaryLE_total summaryLE_trans
        ((shiftChangesRows ds).map withOrder)
      refine List.Pairwise.map _ ?_ hp
      intro a b hab
      rw [rowRank_removeKey_order, rowRank_removeKey_order,
        rowRole_removeKey_order, rowRole_removeKey_order]
      simpa [summaryLE, Bool.or_eq_true, Bool.and_eq_true, decide_eq_true_eq] using hab
    · intro r hr
      rw [List.mem_map] at hr
      rcases hr with ⟨r0, _, rfl⟩
      exact not_mem_keys_removeKey r0 "QuarterOrder"

/-! ## Claim theorems: import merge -/

theorem import_step_lookup_ne (wbS : List (String × ImportSheet)) (d : Dataset) (a q : String)
    (h : a ≠ q) : lookupAssoc (import_step wbS d a) q = lookupAssoc d q := by
  unfold import_step
  cases lookupAssoc wbS a with
  | none => rfl
  | some sh =>
    dsimp only
    by_cases hv : !sh.rows.isEmpty && sh.cols.contains "Role"
    · rw [if_pos hv]
      exact lookupAssoc_setAssoc_ne d a q _ (Ne.symm h)
    · rw [if_neg hv]

theorem import_fold_lookup_not_mem (wbS : List (String × ImportSheet)) :
    ∀ (l : List String) (d : Dataset) (q : String), q ∉ l →
      lookupAssoc (l.foldl (import_step wbS) d) q = lookupAssoc d q := by
  intro l
  induction l with
  | nil =>
    intro d q _
    rfl
  | cons a t ih =>
    intro d q h
    rw [List.foldl_cons]
    have ha : a ≠ q := fun he => h (he ▸ List.mem_cons_self a t)
    rw [ih _ q (fun ht => h (List.mem_cons_of_mem a ht)), import_step_lookup_ne wbS d a q ha]

theorem import_step_lookup_self (wbS : List (String × ImportSheet)) (d : Dataset) (q : String) :
    lookupAssoc (import_step wbS d q) q =
      (match lookupAssoc wbS q with
       | some sh => if !sh.rows.isEmpty && sh.cols.contains "Role"
           then some (buildQuarterDict sh.rows) else lookupAssoc d q
       | Option.none => lookupAssoc d q) := by
  unfold import_step
  cases lookupAssoc wbS q with
  | none => rfl
  | some sh =>
    dsimp only
    by_cases hv : !sh.rows.isEmpty && sh.cols.contains "Role"
    · rw [if_pos hv, if_pos hv, lookupAssoc_setAssoc_self]
    · rw [if_neg hv, if_neg hv]

theorem import_fold_lookup_mem (wbS : List (String × ImportSheet)) :
    ∀ (l : List String), l.Nodup → ∀ (d : Dataset) (q : String), q ∈ l →
      lookupAssoc (l.foldl (import_step wbS) d) q =
        (match lookupAssoc wbS q with
         | some sh => if !sh.rows.isEmpty && sh.cols.contains "Role"
             then some (buildQuarterDict sh.rows) else lookupAssoc d q
         | Option.none => lookupAssoc d q) := by
  intro l
  induction l with
  | nil =>
    intro _ d q h
    cases h
  | cons a t ih =>
    intro hnd d q h
    rw [List.foldl_cons]
    rcases List.mem_cons.mp h with rfl | hqt
    · have hq2 : q ∉ t := (List.nodup_cons.mp hnd).1
      rw [import_fold_lookup_not_mem wbS t _ q hq2, import_step_lookup_self]
    · have hne : a ≠ q := fun he => (List.nodup_cons.mp hnd).1 (he ▸ hqt)
      rw [ih (List.nodup_cons.mp hnd).2 _ q hqt, import_step_lookup_ne wbS d a q hne]

/-- Counterexample to claim C1. The merge phase of the importer
replaces a quarter wholesale: role A is stored under Q1 beforehand,
the imported Q1 sheet lists only role B, and after the merge role A is
gone from the dataset although the imported sheet never mentioned it. -/
theorem import_drops_unlisted_roles :
    (lookupAssoc dsPrior "Q1").bind (fun m => lookupAssoc m "A") =
        some [("Role", PyVal.str "A"), ("Headcount", PyVal.int 1)] ∧
    (lookupAssoc (import_files_merge dsPrior wbImported) "Q1").bind
        (fun m => lookupAssoc m "A") = Option.none := by
  decide

/-- Amended C1. The merge is last-writer-wins at sheet granularity:
for each quarter whose imported sheet is nonempty and carries a Role
column, the dataset entry of that quarter becomes exactly the mapping
built from the sheet rows (later rows with the same role overwrite
earlier ones), so roles previously stored under that quarter but
absent from the sheet are dropped; quarters without such a sheet keep
their prior entries. -/
theorem import_replaces_quarter_wholesale (ds : Dataset) (wbS : List (String × ImportSheet))
    (q : String) (hq : q ∈ QUARTERS) :
    lookupAssoc (import_files_merge ds wbS) q =
      (match lookupAssoc wbS q with
       | some sh => if !sh.rows.isEmpty && sh.cols.contains "Role"
           then some (buildQuarterDict sh.rows) else lookupAssoc ds q
       | Option.none => lookupAssoc ds q) := by
  unfold import_files_merge
  exact import_fold_lookup_mem wbS QUARTERS (by decide) ds q hq

/-- Witness for the amended C1 at the concrete inputs of the
counterexample. -/
theorem import_replaces_quarter_witness :
    lookupAssoc (import_files_merge dsPrior wbImported) "Q1" =
      some [("B", [("Role", PyVal.str "B"), ("Headcount", PyVal.int 2)])] :=
  (import_replaces_quarter_wholesale dsPrior wbImported "Q1" (by decide)).trans (by decide)

/-! ## Claim theorems: durable store and column shapes -/

/-- Claim C4, against the source. A submission never writes the JSON
store: the store after submit_data equals the store before it, and the
in-memory dataset is replaced by the stale store contents instead of
the other way round. Only the import path overwrites the store, with
the merged dataset. This contradicts the source comment stating that
the reloaded file now includes the latest submission. -/
theorem submit_never_writes_store (st : AppState) (q : String) (records : List Row)
    (wbS : List (String × ImportSheet)) :
    (submit_data st q records).store = st.store ∧
    (submit_data st q records).mem = st.store.getD st.mem ∧
    (import_files_update st wbS).store = some (import_files_merge st.mem wbS) :=
  ⟨rfl, rfl, rfl⟩

/-- Claim C3, against the source. After a Q1 submission on a fresh
workbook, the Quarter column appears both in the Q1 sheet (the records
carry it and only the EoS write drops it) and in the aggregated EoS
sheet (the Quarter column is non-numeric, so the first-value reducer
keeps it), contradicting the documented invariant that the quarter
sheets and EoS share a Quarter-free column shape. -/
theorem quarter_column_leak :
    "Quarter" ∈ sheetColsAt stateAfterQ1.wb "Q1" ∧
    "Quarter" ∈ sheetColsAt stateAfterQ1.wb "EoS" := by
  decide
